import Mathlib

/-!
Shallow embedding of the usability-scan core of `UsebilityTesting/app.py`:
the colour parsing and WCAG contrast mathematics, the per-page rule battery
of `run_scan`, the evidence-capture bookkeeping and the cross-page
aggregation, together with theorems settling the frozen claims about them.

Modelling conventions: machine floats of the source are modelled as `ℚ`
where the scan only compares and divides them (font sizes, line heights,
durations) and as `ℝ` where a real power appears (the sRGB gamma of the
contrast check); Python exceptions around a page or a network fetch become
explicit sum types; Python dict insertion becomes `dictInsert` (update in
place, else append).
-/

namespace UsabilityScan

/-- The characters Python's `str.strip()` and the regex `\s` treat as
whitespace. -/
def isPySpace (c : Char) : Bool :=
  c = ' ' || c = '\t' || c = '\n' || c = '\r' || c = '\x0b' || c = '\x0c'

/-- Python `str.strip()` with the default whitespace set. -/
def pyStrip (s : String) : String :=
  ⟨((s.data.dropWhile isPySpace).reverse.dropWhile isPySpace).reverse⟩

/-- Python `str.lower()` (ASCII case folding suffices for the words the
rules compare against). -/
def pyLower (s : String) : String :=
  ⟨s.data.map Char.toLower⟩

/-- Value of a run of decimal digit characters. -/
def digitsVal (ds : List Char) : Nat :=
  ds.foldl (fun n c => 10 * n + (c.toNat - 48)) 0

/-- Longest digit prefix and the remaining characters (a greedy regex `\d+`). -/
def takeDigits : List Char → List Char × List Char
  | [] => ([], [])
  | c :: cs =>
    if c.isDigit then
      let p := takeDigits cs
      (c :: p.1, p.2)
    else ([], c :: cs)

/-- One or more digits, returning their value and the rest; `none` when the
input does not start with a digit. -/
def eatDigits (cs : List Char) : Option (Nat × List Char) :=
  let p := takeDigits cs
  if p.1.isEmpty then none else some (digitsVal p.1, p.2)

/-- Drop a (possibly empty) run of whitespace: the regex `\s*`. -/
def dropSpaces (cs : List Char) : List Char := cs.dropWhile isPySpace

/-- Consume an exact literal prefix. -/
def stripLit : List Char → List Char → Option (List Char)
  | [], cs => some cs
  | _ :: _, [] => none
  | l :: ls, c :: cs => if c = l then stripLit ls cs else none

/-- After the literal `rgb`: the regex piece `a?\(` (an optional `a`, then an
opening parenthesis). -/
def afterRgb : List Char → Option (List Char)
  | 'a' :: rest => stripLit ['('] rest
  | cs => stripLit ['('] cs

/-- The anchored match of the source's colour pattern
`rgba?\((\d+)\s*,\s*(\d+)\s*,\s*(\d+)` (trailing text is ignored, as with
`re.match`). -/
def rgbTriple (cs : List Char) : Option (Nat × Nat × Nat) := do
  let cs ← stripLit ['r', 'g', 'b'] cs
  let cs ← afterRgb cs
  let (r, cs) ← eatDigits cs
  let cs ← stripLit [','] (dropSpaces cs)
  let (g, cs) ← eatDigits (dropSpaces cs)
  let cs ← stripLit [','] (dropSpaces cs)
  let (b, _) ← eatDigits (dropSpaces cs)
  return (r, g, b)

/-- Models `parse_rgb` (app.py lines 90-97): `None` and the empty string fail
the truthiness guard, any string the pattern does not match falls through, and
all of these default to black. -/
def parse_rgb (s : Option String) : Nat × Nat × Nat :=
  match s with
  | none => (0, 0, 0)
  | some str =>
    if str = "" then (0, 0, 0)
    else
      match rgbTriple str.toList with
      | some t => t
      | none => (0, 0, 0)

/-- The per-channel sRGB gamma correction inside `relative_luminance`
(app.py lines 100-102). -/
noncomputable def srgbChannel (c : Nat) : ℝ :=
  let x : ℝ := (c : ℝ) / 255
  if x ≤ 0.03928 then x / 12.92 else ((x + 0.055) / 1.055) ^ (2.4 : ℝ)

/-- Models `relative_luminance` (app.py lines 99-104). -/
noncomputable def relative_luminance (rgb : Nat × Nat × Nat) : ℝ :=
  0.2126 * srgbChannel rgb.1 + 0.7152 * srgbChannel rgb.2.1 + 0.0722 * srgbChannel rgb.2.2

/-- Models `contrast_ratio` (app.py lines 106-109). -/
noncomputable def contrast_ratio (fg bg : Nat × Nat × Nat) : ℝ :=
  let l1 := max (relative_luminance fg) (relative_luminance bg)
  let l2 := min (relative_luminance fg) (relative_luminance bg)
  (l1 + 0.05) / (l2 + 0.05)

/-- Keep only digits and dots: the `re.sub` with pattern of all other
characters used on `fontSize` and `lineHeight` strings. -/
def keepNumChars (s : String) : List Char :=
  s.toList.filter (fun c => c.isDigit || c = '.')

/-- Python `float()` over a string of digits and dots: at least one digit and
at most one dot, otherwise a ValueError (`none`). -/
def floatOfDigitsDot (cs : List Char) : Option ℚ :=
  if ¬ cs.all (fun c => c.isDigit || c = '.') then none
  else
    match cs.splitOn '.' with
    | [ip] => if ip.isEmpty then none else some (digitsVal ip : ℚ)
    | [ip, fp] =>
      if ip.isEmpty && fp.isEmpty then none
      else some ((digitsVal ip : ℚ) + (digitsVal fp : ℚ) / (10 : ℚ) ^ fp.length)
    | _ => none

/-- The `try: float(re.sub(r'[^0-9.]+', '', s)) except:` idiom of the
readability rule; the caller supplies the except-branch default. -/
def pyFloat (s : String) : Option ℚ := floatOfDigitsDot (keepNumChars s)

/-- Result of one liveness probe (the `urlopen` in the link and image checks):
an HTTP status, or a raised exception / 5-second timeout. -/
inductive FetchRes where
  | status (code : Nat)
  | failed
deriving DecidableEq

/-- One entry of the `style_results` snapshot pulled from the rendered page:
the raw strings the browser handed back (absent keys are `none`); the
geometry fields only feed overlay rectangles and are not modelled. -/
structure StyleSample where
  text : String
  color : Option String
  bg : Option String
  fontSize : Option String
  lineHeight : Option String
deriving DecidableEq

/-- One anchor of the page: its `href` attribute, its visible text, the
resolved absolute URL `urljoin(link, href)`, and the outcome of its
liveness probe. -/
structure AnchorInput where
  href : Option String
  text : String
  absUrl : String
  fetch : FetchRes
deriving DecidableEq

/-- One image of the page: `alt` and `src` attributes, the resolved absolute
URL, and the outcome of its liveness probe. -/
structure ImgInput where
  alt : Option String
  src : Option String
  absUrl : String
  fetch : FetchRes
deriving DecidableEq

/-- The signals `run_scan` extracts for one successfully loaded page.
`rawTitle` is `soup.title.string` when present; `kb` is the
(tabbables, blocked) pair or `none`; `forms` holds, per form, whether each
control has an associated label (the two lookup paths of the source
collapsed to their disjunction); `navLinks` are the stripped texts of the
`nav a` elements; `perfDuration` is the navigation duration or `none`. -/
structure PageInput where
  rawTitle : Option String
  headingLevels : List Nat
  imgs : List ImgInput
  viewportMeta : Bool
  mqCount : Option Int
  anchors : List AnchorInput
  styleSamples : List StyleSample
  kb : Option (Nat × Nat)
  forms : List (List Bool)
  navLinks : List String
  hasFeedback : Bool
  perfDuration : Option ℚ
deriving DecidableEq

/-- One URL of the scan list: its signals, or the exception its navigation
raised (caught by the per-page handler). -/
inductive PageResult where
  | loaded (p : PageInput)
  | error (msg : String)
deriving DecidableEq

/-- One issue row appended by `run_scan`: the capture rule key, the issue
name, the page URL, the description, the severity and the screenshot
reference (the source's 5-tuple, plus the rule key the capture call used). -/
structure Finding where
  key : String
  rule : String
  page : String
  desc : String
  severity : String
  evidence : Option String
deriving DecidableEq

/-- The scan's only real-valued branch — the WCAG comparison `ratio < 4.5`
and the `.2f` formatting of the ratio — abstracted as a boolean/string
oracle so the rest of the battery stays executable. `realContrastOracle`
is the intended instantiation; scan-level theorems hold for every oracle. -/
structure ContrastOracle where
  below : Nat × Nat × Nat → Nat × Nat × Nat → Bool
  fmt : Nat × Nat × Nat → Nat × Nat × Nat → String

/-- The oracle the source computes: `contrast_ratio(fg, bg) < 4.5`, with a
rendering function for the `.2f` formatting supplied from outside. -/
noncomputable def realContrastOracle (render : ℝ → String) : ContrastOracle where
  below fg bg := decide (contrast_ratio fg bg < 4.5)
  fmt fg bg := render (contrast_ratio fg bg)

/-- The effective page title: `soup.title.string.strip()` when the title tag
has string content, else the empty string (app.py line 233). -/
def pyTitle (p : PageInput) : String :=
  match p.rawTitle with
  | some s => pyStrip s
  | none => ""

/-- Rule 1, title quality (app.py lines 232-237). -/
def titleFindings (link : String) (p : PageInput) : List Finding :=
  let t := pyTitle p
  if t = "" ∨ t.length < 5 then
    [⟨"title", "Page title not descriptive", link,
      "Provide a unique, descriptive <title> of at least 5 characters.", "High", none⟩]
  else []

/-- Rule 2, headings hierarchy (app.py lines 239-264): missing H1, multiple
H1, and the first backward level skip. -/
def headingFindings (link : String) (p : PageInput) : List Finding :=
  let ls := p.headingLevels
  (if ¬ ls.contains 1 then
    [⟨"headings", "Missing H1 heading", link,
      "Include a single, clear <h1> per page.", "Medium", none⟩]
   else []) ++
  (if ls.count 1 > 1 then
    [⟨"headings", "Multiple H1 headings", link,
      "Use only one <h1> to anchor page structure.", "Low", none⟩]
   else []) ++
  (if (ls.zip ls.tail).any (fun pr => pr.1 + 1 < pr.2) then
    [⟨"headings", "Heading level skips", link,
      "Use hierarchical headings without skipping levels (e.g., h2 then h3).", "Low", none⟩]
   else [])

/-- Last path component: `os.path.basename` on forward-slash paths. -/
def basename (s : String) : String :=
  ⟨(s.data.splitOn '/').getLastD []⟩

/-- The generic alt-text words the alt rule rejects. -/
def genericAlts : List String := ["image", "photo", "picture"]

/-- The alt-rule condition for one image (app.py line 271). -/
def altBad (img : ImgInput) : Bool :=
  let src := img.src.getD ""
  match img.alt with
  | none => true
  | some a =>
    a = "" || (pyStrip a).length < 3 || genericAlts.contains (pyLower (pyStrip a))
      || pyLower (pyStrip a) = pyLower (basename src)

/-- Rule 3, alternative text (app.py lines 266-280): first offender only. -/
def altFindings (link : String) (p : PageInput) : List Finding :=
  if p.imgs.any altBad then
    [⟨"alt", "Image alt text not meaningful", link,
      "Provide descriptive alt text (≥3 chars, not generic or filename).", "High", none⟩]
  else []

/-- Rule 4, mobile responsiveness (app.py lines 282-295). -/
def viewportFindings (link : String) (p : PageInput) : List Finding :=
  (if ¬ p.viewportMeta then
    [⟨"viewport", "Missing viewport meta", link,
      "Add <meta name='viewport' content='width=device-width, initial-scale=1.0'>.",
      "Medium", none⟩]
   else []) ++
  (match p.mqCount with
   | some n =>
     if n = 0 then
       [⟨"viewport", "No responsive media queries", link,
         "Add CSS media queries to adapt layout across devices.", "Low", none⟩]
     else []
   | none => [])

/-- The placeholder hrefs the link rule rejects. -/
def emptyHrefs : List String := ["#", "", "javascript:void(0)"]

/-- The generic link texts the link rule rejects. -/
def genericLinkTexts : List String := ["click here", "here", "read more", "learn more", "more"]

/-- The non-breaking descriptiveness check inside the anchor loop
(app.py lines 311-323); the overlay-locating script is assumed not to
raise (its exception path merely skips this one finding). -/
def linkTextFindings (link : String) (a : AnchorInput) : List Finding :=
  let t := pyStrip a.text
  if t ≠ "" ∧ genericLinkTexts.contains (pyLower t) then
    [⟨"links", "Link text not descriptive", link,
      "Use descriptive link text instead of '" ++ t ++ "'.", "Low", none⟩]
  else []

/-- Rule 5, link integrity and liveness (app.py lines 297-347): an empty or
placeholder href, or the first dead anchor, ends the loop. -/
def linkFindings (link : String) : List AnchorInput → List Finding
  | [] => []
  | a :: rest =>
    match a.href with
    | none =>
      [⟨"links", "Empty or broken link", link,
        "Provide valid href and meaningful link text.", "Medium", none⟩]
    | some h =>
      if emptyHrefs.contains h then
        [⟨"links", "Empty or broken link", link,
          "Provide valid href and meaningful link text.", "Medium", none⟩]
      else
        linkTextFindings link a ++
        match a.fetch with
        | .status code =>
          if code ≥ 400 then
            [⟨"links", "Broken link detected", link,
              "Link returns HTTP " ++ toString code ++ ": " ++ a.absUrl, "High", none⟩]
          else linkFindings link rest
        | .failed =>
          [⟨"links", "Broken link detected", link,
            "Failed to open: " ++ h, "High", none⟩]

/-- Rule 6, colour contrast (app.py lines 349-370): one finding when any
sample is below threshold, described by the first offender. -/
def contrastFindings (oracle : ContrastOracle) (link : String) (p : PageInput) : List Finding :=
  match p.styleSamples.find? (fun it => oracle.below (parse_rgb it.color) (parse_rgb it.bg)) with
  | some it =>
    [⟨"contrast", "Insufficient colour contrast", link,
      "Contrast " ++ oracle.fmt (parse_rgb it.color) (parse_rgb it.bg) ++
        ":1 below 4.5:1 for text '" ++ it.text ++ "'.", "High", none⟩]
  | none => []

/-- Rule 7, keyboard navigation (app.py lines 372-387). -/
def keyboardFindings (link : String) (p : PageInput) : List Finding :=
  match p.kb with
  | none => []
  | some kb =>
    (if kb.1 = 0 then
      [⟨"keyboard", "Keyboard navigation inaccessible", link,
        "Ensure interactive elements are reachable via keyboard (Tab).", "High", none⟩]
     else []) ++
    (if kb.2 > 0 then
      [⟨"keyboard", "Elements removed from tab order", link,
        "Avoid tabindex='-1' unless necessary; keep natural focus order.", "Low", none⟩]
     else [])

/-- Rule 8, form usability (app.py lines 389-414): one finding per form with
an unlabeled control (the break leaves the inner loop only). -/
def formFindings (link : String) (p : PageInput) : List Finding :=
  p.forms.flatMap (fun controls =>
    if controls.any (fun hasLabel => ¬ hasLabel) then
      [⟨"forms", "Form field missing label", link,
        "Associate inputs with visible labels using <label for='id'>.", "Medium", none⟩]
    else [])

/-- Rule 10, feedback mechanisms (app.py lines 420-423). -/
def feedbackFindings (link : String) (p : PageInput) : List Finding :=
  if ¬ p.hasFeedback then
    [⟨"feedback", "Missing user feedback hooks", link,
      "Provide clear feedback areas (role='alert' or aria-live) for system actions/errors.",
      "Low", none⟩]
  else []

/-- The font size of one sample: parse failure defaults to 12.0
(app.py lines 427-430). -/
def sampleFontSize (it : StyleSample) : ℚ :=
  (pyFloat (it.fontSize.getD "12")).getD 12

/-- The line height of one sample: parse failure (for instance the keyword
`normal`) defaults to 1.2 times the font size (app.py lines 431-435). -/
def sampleLineHeight (it : StyleSample) (fs : ℚ) : ℚ :=
  (pyFloat (it.lineHeight.getD "normal")).getD (fs * 1.2)

/-- Rule 11, readability (app.py lines 425-445). The tight-spacing branch
embeds the source line `if (lh/fs) if fs>0 else 1.0 < 1.2:` exactly as
Python parses it — `(lh/fs) if (fs>0) else (1.0 < 1.2)` — so for a positive
font size the quotient is tested for truthiness (non-zero), not compared
against 1.2. -/
def readabilityFindings (link : String) : List StyleSample → List Finding
  | [] => []
  | it :: rest =>
    let fs := sampleFontSize it
    let lh := sampleLineHeight it fs
    if fs < 12 then
      [⟨"readability", "Small font size", link,
        "Increase font size to ≥ 12px. Found " ++ toString fs ++ "px.", "Low", none⟩]
    else if (if fs > 0 then lh / fs != 0 else decide ((1 : ℚ) < 1.2)) then
      [⟨"readability", "Tight line spacing", link,
        "Use line-height ≈ 1.4 for comfortable reading.", "Low", none⟩]
    else readabilityFindings link rest

/-- Rule 12, performance (app.py lines 447-456). -/
def performanceFindings (link : String) (p : PageInput) : List Finding :=
  let dur := p.perfDuration.getD 0
  if dur > 3000 then
    [⟨"performance", "Slow page performance", link,
      "Navigation duration " ++ toString dur ++ "ms; optimize assets and requests.",
      "Medium", none⟩]
  else []

/-- Rule 13, broken images (app.py lines 458-486): images without a src are
skipped, the first dead one ends the loop. -/
def imageFindings (link : String) : List ImgInput → List Finding
  | [] => []
  | img :: rest =>
    match img.src with
    | none => imageFindings link rest
    | some s =>
      if s = "" then imageFindings link rest
      else
        match img.fetch with
        | .status code =>
          if code ≥ 400 then
            [⟨"images", "Broken image source", link,
              "Image returns HTTP " ++ toString code ++ ": " ++ img.absUrl, "Low", none⟩]
          else imageFindings link rest
        | .failed =>
          [⟨"images", "Broken image source", link,
            "Failed to load image: " ++ s, "Low", none⟩]

/-- The whole per-page rule battery in source order (app.py lines 232-486),
before evidence filenames are attached. -/
def perPageFindings (oracle : ContrastOracle) (link : String) (p : PageInput) : List Finding :=
  titleFindings link p ++ headingFindings link p ++ altFindings link p ++
  viewportFindings link p ++ linkFindings link p.anchors ++
  contrastFindings oracle link p ++ keyboardFindings link p ++
  formFindings link p ++ feedbackFindings link p ++
  readabilityFindings link p.styleSamples ++ performanceFindings link p ++
  imageFindings link p.imgs

/-- The collision-free screenshot filename `capture_rule_screenshot` builds
(app.py line 161); the uuid hex is modelled by the running capture counter. -/
def shotName (n : Nat) (key : String) : String :=
  "screenshot_" ++ toString n ++ "_" ++ key ++ ".png"

/-- Attach the evidence filenames to a page's findings: capture precedes each
append, one capture per rule finding, and `capture_rule_screenshot` returns
the filename whether or not `save_screenshot` succeeded. -/
def attachEvidence (c : Nat) : List Finding → List Finding
  | [] => []
  | f :: rest => { f with evidence := some (shotName c f.key) } :: attachEvidence (c + 1) rest

/-- The issue rows one scan-list entry appends: the rule battery's findings
with evidence attached (counter `c` is the page-level screenshot, the rule
captures follow), or the single page-load-error row of the per-page handler
(app.py lines 490-492), which captures nothing. -/
def pageIssues (oracle : ContrastOracle) (c : Nat) (link : String) : PageResult → List Finding
  | .loaded p => attachEvidence (c + 1) (perPageFindings oracle link p)
  | .error msg => [⟨"", "Page load error", link, msg, "High", none⟩]

/-- The screenshot files a page's rule captures actually wrote: the file at
counter `n` exists exactly when `save_screenshot` succeeded there
(`saveOk n`); the returned filename is unconditional either way. -/
def savedShots (saveOk : Nat → Bool) (c : Nat) : List Finding → List String
  | [] => []
  | f :: rest =>
    (if saveOk c then [shotName c f.key] else []) ++ savedShots saveOk (c + 1) rest

/-- All screenshot files one scan-list entry wrote: the page-level shot and
the rule captures for a loaded page, nothing for a failed navigation. -/
def pageWritten (oracle : ContrastOracle) (saveOk : Nat → Bool) (c : Nat) (link : String) :
    PageResult → List String
  | .loaded p =>
    (if saveOk c then [shotName c "page"] else []) ++
    savedShots saveOk (c + 1) (perPageFindings oracle link p)
  | .error _ => []

/-- The `(url, screenshot)` pairs appended to `page_screenshots`: only when
the page-level save succeeded (app.py lines 184-189). -/
def pageShotEntries (saveOk : Nat → Bool) (c : Nat) (link : String) :
    PageResult → List (String × String)
  | .loaded _ => if saveOk c then [(link, shotName c "page")] else []
  | .error _ => []

/-- How many capture counters one scan-list entry consumes. -/
def shotsConsumed (oracle : ContrastOracle) (link : String) : PageResult → Nat
  | .loaded p => 1 + (perPageFindings oracle link p).length
  | .error _ => 0

/-- The issue rows of the main per-page loop, in scan order. -/
def scanIssues (oracle : ContrastOracle) (c : Nat) : List (String × PageResult) → List Finding
  | [] => []
  | (link, pr) :: rest =>
    pageIssues oracle c link pr ++
    scanIssues oracle (c + shotsConsumed oracle link pr) rest

/-- The screenshot files the main loop wrote. -/
def scanWritten (oracle : ContrastOracle) (saveOk : Nat → Bool) (c : Nat) :
    List (String × PageResult) → List String
  | [] => []
  | (link, pr) :: rest =>
    pageWritten oracle saveOk c link pr ++
    scanWritten oracle saveOk (c + shotsConsumed oracle link pr) rest

/-- The `page_screenshots` list of the main loop. -/
def scanShots (oracle : ContrastOracle) (saveOk : Nat → Bool) (c : Nat) :
    List (String × PageResult) → List (String × String)
  | [] => []
  | (link, pr) :: rest =>
    pageShotEntries saveOk c link pr ++
    scanShots oracle saveOk (c + shotsConsumed oracle link pr) rest

/-- Python dict insertion: update the value in place when the key exists,
else append the pair. -/
def dictInsert (m : List (String × String)) (k v : String) : List (String × String) :=
  if m.any (fun kv => kv.1 = k) then
    m.map (fun kv => if kv.1 = k then (k, v) else kv)
  else m ++ [(k, v)]

/-- The `title_map` dict after the loop: one entry per loaded page
(app.py line 237; a page whose navigation raised never reaches it). -/
def titleMapOf (pages : List (String × PageResult)) : List (String × String) :=
  pages.foldl (fun m pg =>
    match pg.2 with
    | .loaded p => dictInsert m pg.1 (pyTitle p)
    | .error _ => m) []

/-- The per-page navigation signature (app.py lines 417-418): the pipe-joined
texts of up to ten `nav a` links, the empty string when there are none. -/
def navSig (p : PageInput) : String :=
  let ls := p.navLinks.take 10
  if ls.isEmpty then "" else String.intercalate "|" ls

/-- The `nav_signatures` dict after the loop. -/
def navSigsOf (pages : List (String × PageResult)) : List (String × String) :=
  pages.foldl (fun m pg =>
    match pg.2 with
    | .loaded p => dictInsert m pg.1 (navSig p)
    | .error _ => m) []

/-- The duplicate-title row for one page. -/
def dupRow (page : String) : Finding :=
  ⟨"", "Non-unique page title", page,
    "Each page should have a unique, descriptive title.", "Medium", none⟩

/-- The duplicate-title filter over the title map: membership of a title in
the source's `dup_titles` set comprehension unfolded to its defining
predicate (non-empty and occurring more than once in the title list). -/
def dupEntryRows (titles : List String) (m : List (String × String)) : List Finding :=
  m.filterMap (fun pt =>
    if pt.2 ≠ "" ∧ titles.count pt.2 > 1 then some (dupRow pt.1) else none)

/-- The duplicate-title aggregation (app.py lines 500-506): with more than
one page scanned, each page whose non-empty title occurs more than once in
the title list is flagged Medium. -/
def dupTitleFindings (tm : List (String × String)) : List Finding :=
  if tm.length > 1 then dupEntryRows (tm.map Prod.snd) tm else []

/-- Python `max(iterable, key=sigs.count)`: fold the iteration order, keeping
the earlier element unless a later one has a strictly greater count. The
iteration order of `set(sigs)` is unspecified (hash order), so it is a
parameter; theorems either quantify over every valid order or cover all
orders of a concrete set. -/
def maxByCount (sigs : List String) : List String → String
  | [] => ""
  | x :: rest =>
    rest.foldl (fun best y => if sigs.count y > sigs.count best then y else best) x

/-- A possible iteration order of `set(sigs)`: the distinct elements of
`sigs`, each exactly once, in some order. -/
def validSetOrder (sigs : List String) (setOrder : List String) : Prop :=
  setOrder.Nodup ∧ ∀ x, x ∈ setOrder ↔ x ∈ sigs

/-- The inconsistent-navigation row for one page. -/
def navRow (page : String) : Finding :=
  ⟨"", "Inconsistent navigation", page,
    "Use a uniform navigation structure across pages.", "Low", none⟩

/-- The inconsistent-navigation filter over the signature map for a fixed
majority signature. -/
def navEntryRows (majority : String) (m : List (String × String)) : List Finding :=
  m.filterMap (fun ps =>
    if ps.2 ≠ "" ∧ majority ≠ "" ∧ ps.2 ≠ majority then some (navRow ps.1) else none)

/-- The inconsistent-navigation aggregation (app.py lines 508-513): with more
than one page scanned, each page whose signature and the majority signature
are both non-empty and differ is flagged Low. -/
def navIncFindings (nm : List (String × String)) (setOrder : List String) : List Finding :=
  if nm.length > 1 then navEntryRows (maxByCount (nm.map Prod.snd) setOrder) nm else []

/-- The full issue list `run_scan` returns: the per-page loop, then the
duplicate-title and inconsistent-navigation aggregates. -/
def runScanIssues (oracle : ContrastOracle) (setOrder : List String)
    (pages : List (String × PageResult)) : List Finding :=
  scanIssues oracle 0 pages ++ dupTitleFindings (titleMapOf pages) ++
  navIncFindings (navSigsOf pages) setOrder

/-- All screenshot files a scan wrote. -/
def runScanWritten (oracle : ContrastOracle) (saveOk : Nat → Bool)
    (pages : List (String × PageResult)) : List String :=
  scanWritten oracle saveOk 0 pages

/-- The `page_screenshots` list a scan returns. -/
def runScanShots (oracle : ContrastOracle) (saveOk : Nat → Bool)
    (pages : List (String × PageResult)) : List (String × String) :=
  scanShots oracle saveOk 0 pages

/-- The three severities `run_scan` ever writes. -/
def severityOk (f : Finding) : Prop :=
  f.severity = "High" ∨ f.severity = "Medium" ∨ f.severity = "Low"

/-- The issue-name/severity pairs of the per-page rule battery, in source
order of first appearance. -/
def rulePairs : List (String × String) :=
  [("Page title not descriptive", "High"), ("Missing H1 heading", "Medium"),
   ("Multiple H1 headings", "Low"), ("Heading level skips", "Low"),
   ("Image alt text not meaningful", "High"), ("Missing viewport meta", "Medium"),
   ("No responsive media queries", "Low"), ("Empty or broken link", "Medium"),
   ("Link text not descriptive", "Low"), ("Broken link detected", "High"),
   ("Insufficient colour contrast", "High"), ("Keyboard navigation inaccessible", "High"),
   ("Elements removed from tab order", "Low"), ("Form field missing label", "Medium"),
   ("Missing user feedback hooks", "Low"), ("Small font size", "Low"),
   ("Tight line spacing", "Low"), ("Slow page performance", "Medium"),
   ("Broken image source", "Low")]

/-- The counting predicate of the per-rule-per-page theorems: a finding with
the given issue name on the given page. -/
def ruleAt (r link : String) (f : Finding) : Bool :=
  f.rule == r && f.page == link

/-- How many capture counters a prefix of the scan list consumes. -/
def consumedAll (oracle : ContrastOracle) : List (String × PageResult) → Nat
  | [] => 0
  | (link, pr) :: rest => shotsConsumed oracle link pr + consumedAll oracle rest

/-- An anchor that does not end the anchor loop: a usable href and a fetch
below the 400 threshold. -/
def liveAnchor (a : AnchorInput) : Bool :=
  (match a.href with
   | none => false
   | some h => !(emptyHrefs.contains h)) &&
  (match a.fetch with
   | .status code => code < 400
   | .failed => false)

/-- A constant oracle for concrete witnesses and counterexamples; the pages
they use carry no style samples, so the oracle is never consulted. -/
def constContrastOracle : ContrastOracle :=
  ⟨fun _ _ => false, fun _ _ => ""⟩

/-- A concrete page without a title whose other signals are all benign: the
battery fires exactly the title rule on it. -/
def quietPage : PageInput :=
  { rawTitle := none, headingLevels := [1], imgs := [], viewportMeta := true,
    mqCount := some 1, anchors := [], styleSamples := [], kb := some (1, 0),
    forms := [], navLinks := [], hasFeedback := true, perfDuration := some 0 }

/-- A live concrete anchor (status 200, ordinary text). -/
def anchorOk : AnchorInput :=
  { href := some "/about", text := "About us", absUrl := "https://x.test/about",
    fetch := .status 200 }

/-- A concrete anchor whose probe returns 404. -/
def anchor404 : AnchorInput :=
  { href := some "/gone", text := "Gone", absUrl := "https://x.test/gone",
    fetch := .status 404 }

/-- A concrete anchor whose probe returns 500, placed after the first
offender to show the loop stopped. -/
def anchor500 : AnchorInput :=
  { href := some "/err", text := "Err", absUrl := "https://x.test/err",
    fetch := .status 500 }

/-- A concrete anchor whose probe raises (timeout or error). -/
def anchorRaise : AnchorInput :=
  { href := some "/slow", text := "Slow", absUrl := "https://x.test/slow",
    fetch := .failed }

/-!
Theorems. First the two claims about the colour pipeline, then shape lemmas
for every rule block (each finding carries its page URL and one of the
block's literal issue-name/severity pairs), and on top of those the claims
about the scan as a whole.
-/

/-- C5: the contrast ratio is symmetric in its operands, and black on white
evaluates to 21.0 (within the claimed 0.01 tolerance; over the reals the
embedded WCAG formula gives exactly 21). -/
theorem contrast_symm_and_black_white :
    (∀ fg bg : Nat × Nat × Nat, contrast_ratio fg bg = contrast_ratio bg fg) ∧
    |contrast_ratio (0, 0, 0) (255, 255, 255) - 21| ≤ 0.01 := by
  have hch0 : srgbChannel 0 = 0 := by
    unfold srgbChannel
    rw [if_pos (by norm_num)]
    norm_num
  have hch255 : srgbChannel 255 = 1 := by
    unfold srgbChannel
    rw [if_neg (by norm_num), show (((255 : ℕ) : ℝ) / 255 + 0.055) / 1.055 = 1 by norm_num,
      Real.one_rpow]
  have hblack : relative_luminance (0, 0, 0) = 0 := by
    show 0.2126 * srgbChannel 0 + 0.7152 * srgbChannel 0 + 0.0722 * srgbChannel 0 = 0
    rw [hch0]
    norm_num
  have hwhite : relative_luminance (255, 255, 255) = 1 := by
    show 0.2126 * srgbChannel 255 + 0.7152 * srgbChannel 255 + 0.0722 * srgbChannel 255 = 1
    rw [hch255]
    norm_num
  refine ⟨fun fg bg => ?_, ?_⟩
  · unfold contrast_ratio
    rw [max_comm, min_comm]
  · unfold contrast_ratio
    rw [hblack, hwhite]
    norm_num

/-- C9: colour values that the rgb()/rgba() pattern does not match — a missing
value, the empty string, and any non-matching string — all parse to black,
so unparsable samples still reach the contrast comparison. -/
theorem parse_rgb_defaults_to_black :
    parse_rgb none = (0, 0, 0) ∧
    parse_rgb (some "") = (0, 0, 0) ∧
    parse_rgb (some "#a0b1c2") = (0, 0, 0) ∧
    parse_rgb (some "transparent") = (0, 0, 0) ∧
    parse_rgb (some "rgb(12, 34)") = (0, 0, 0) ∧
    parse_rgb (some "rgb(255, 255, 255)") = (255, 255, 255) ∧
    (∀ s : String, rgbTriple s.toList = none → parse_rgb (some s) = (0, 0, 0)) := by
  refine ⟨rfl, by decide, by decide, by decide, by decide, by decide, fun s h => ?_⟩
  have h2 : rgbTriple s.data = none := h
  by_cases hs : s = "" <;> simp [parse_rgb, hs, h2]

/-- Every title-rule finding carries its page and the block's literal pair. -/
theorem titleFindings_shape (link : String) (p : PageInput) :
    ∀ f ∈ titleFindings link p,
      f.page = link ∧ (f.rule, f.severity) ∈ [("Page title not descriptive", "High")] := by
  intro f hf
  unfold titleFindings at hf
  dsimp only [] at hf
  split at hf <;> simp_all

/-- Every headings-rule finding carries its page and one of the block's
literal pairs. -/
theorem headingFindings_shape (link : String) (p : PageInput) :
    ∀ f ∈ headingFindings link p,
      f.page = link ∧ (f.rule, f.severity) ∈
        [("Missing H1 heading", "Medium"), ("Multiple H1 headings", "Low"),
         ("Heading level skips", "Low")] := by
  intro f hf
  unfold headingFindings at hf
  simp only [List.mem_append] at hf
  rcases hf with (hf | hf) | hf <;> split at hf <;> simp_all

/-- Every alt-rule finding carries its page and the block's literal pair. -/
theorem altFindings_shape (link : String) (p : PageInput) :
    ∀ f ∈ altFindings link p,
      f.page = link ∧ (f.rule, f.severity) ∈ [("Image alt text not meaningful", "High")] := by
  intro f hf
  unfold altFindings at hf
  split at hf <;> simp_all

/-- Every viewport-rule finding carries its page and one of the block's
literal pairs. -/
theorem viewportFindings_shape (link : String) (p : PageInput) :
    ∀ f ∈ viewportFindings link p,
      f.page = link ∧ (f.rule, f.severity) ∈
        [("Missing viewport meta", "Medium"), ("No responsive media queries", "Low")] := by
  intro f hf
  unfold viewportFindings at hf
  simp only [List.mem_append] at hf
  rcases hf with hf | hf
  · split at hf <;> simp_all
  · split at hf
    · split at hf <;> simp_all
    · simp_all

/-- Every link-text finding carries its page and the literal pair. -/
theorem linkTextFindings_shape (link : String) (a : AnchorInput) :
    ∀ f ∈ linkTextFindings link a,
      f.page = link ∧ (f.rule, f.severity) ∈ [("Link text not descriptive", "Low")] := by
  intro f hf
  unfold linkTextFindings at hf
  dsimp only [] at hf
  split at hf <;> simp_all

/-- Every link-rule finding carries its page and one of the block's literal
pairs. -/
theorem linkFindings_shape (link : String) (as : List AnchorInput) :
    ∀ f ∈ linkFindings link as,
      f.page = link ∧ (f.rule, f.severity) ∈
        [("Empty or broken link", "Medium"), ("Link text not descriptive", "Low"),
         ("Broken link detected", "High")] := by
  induction as with
  | nil => intro f hf; simp [linkFindings] at hf
  | cons a rest ih =>
    intro f hf
    unfold linkFindings at hf
    split at hf
    · simp_all
    · split at hf
      · simp_all
      · simp only [List.mem_append] at hf
        rcases hf with hf | hf
        · obtain ⟨h1, h2⟩ := linkTextFindings_shape link a f hf
          exact ⟨h1, by simp_all⟩
        · split at hf
          · split at hf
            · simp_all
            · exact ih f hf
          · simp_all

/-- Every contrast finding carries its page and the block's literal pair. -/
theorem contrastFindings_shape (oracle : ContrastOracle) (link : String) (p : PageInput) :
    ∀ f ∈ contrastFindings oracle link p,
      f.page = link ∧ (f.rule, f.severity) ∈ [("Insufficient colour contrast", "High")] := by
  intro f hf
  unfold contrastFindings at hf
  split at hf <;> simp_all

/-- Every keyboard finding carries its page and one of the block's literal
pairs. -/
theorem keyboardFindings_shape (link : String) (p : PageInput) :
    ∀ f ∈ keyboardFindings link p,
      f.page = link ∧ (f.rule, f.severity) ∈
        [("Keyboard navigation inaccessible", "High"),
         ("Elements removed from tab order", "Low")] := by
  intro f hf
  unfold keyboardFindings at hf
  split at hf
  · simp_all
  · simp only [List.mem_append] at hf
    rcases hf with hf | hf <;> split at hf <;> simp_all

/-- Every form finding carries its page and the block's literal pair. -/
theorem formFindings_shape (link : String) (p : PageInput) :
    ∀ f ∈ formFindings link p,
      f.page = link ∧ (f.rule, f.severity) ∈ [("Form field missing label", "Medium")] := by
  intro f hf
  unfold formFindings at hf
  simp only [List.mem_flatMap] at hf
  obtain ⟨controls, -, hf⟩ := hf
  split at hf <;> simp_all

/-- Every feedback finding carries its page and the block's literal pair. -/
theorem feedbackFindings_shape (link : String) (p : PageInput) :
    ∀ f ∈ feedbackFindings link p,
      f.page = link ∧ (f.rule, f.severity) ∈ [("Missing user feedback hooks", "Low")] := by
  intro f hf
  unfold feedbackFindings at hf
  split at hf <;> simp_all

/-- Every readability finding carries its page and one of the block's
literal pairs. -/
theorem readabilityFindings_shape (link : String) (samples : List StyleSample) :
    ∀ f ∈ readabilityFindings link samples,
      f.page = link ∧ (f.rule, f.severity) ∈
        [("Small font size", "Low"), ("Tight line spacing", "Low")] := by
  induction samples with
  | nil => intro f hf; simp [readabilityFindings] at hf
  | cons it rest ih =>
    intro f hf
    unfold readabilityFindings at hf
    dsimp only [] at hf
    split at hf
    · simp_all
    · split at hf <;> split at hf
      · simp_all
      · exact ih f hf
      · simp_all
      · exact ih f hf

/-- Every performance finding carries its page and the block's literal pair. -/
theorem performanceFindings_shape (link : String) (p : PageInput) :
    ∀ f ∈ performanceFindings link p,
      f.page = link ∧ (f.rule, f.severity) ∈ [("Slow page performance", "Medium")] := by
  intro f hf
  unfold performanceFindings at hf
  dsimp only [] at hf
  split at hf <;> simp_all

/-- Every image finding carries its page and the block's literal pair. -/
theorem imageFindings_shape (link : String) (imgs : List ImgInput) :
    ∀ f ∈ imageFindings link imgs,
      f.page = link ∧ (f.rule, f.severity) ∈ [("Broken image source", "Low")] := by
  induction imgs with
  | nil => intro f hf; simp [imageFindings] at hf
  | cons img rest ih =>
    intro f hf
    unfold imageFindings at hf
    split at hf
    · exact ih f hf
    · split at hf
      · exact ih f hf
      · split at hf
        · split at hf
          · simp_all
          · exact ih f hf
        · simp_all

/-- Every rule-battery finding carries its page and one of the battery's
literal issue-name/severity pairs. -/
theorem perPageFindings_shape (oracle : ContrastOracle) (link : String) (p : PageInput) :
    ∀ f ∈ perPageFindings oracle link p,
      f.page = link ∧ (f.rule, f.severity) ∈ rulePairs := by
  intro f hf
  unfold perPageFindings at hf
  simp only [List.mem_append] at hf
  rcases hf with ((((((((((hf | hf) | hf) | hf) | hf) | hf) | hf) | hf) | hf) | hf) | hf) | hf
  · obtain ⟨h1, h2⟩ := titleFindings_shape link p f hf
    exact ⟨h1, (by decide : ∀ x ∈ [("Page title not descriptive", "High")],
      x ∈ rulePairs) _ h2⟩
  · obtain ⟨h1, h2⟩ := headingFindings_shape link p f hf
    exact ⟨h1, (by decide : ∀ x ∈ [("Missing H1 heading", "Medium"),
      ("Multiple H1 headings", "Low"), ("Heading level skips", "Low")], x ∈ rulePairs) _ h2⟩
  · obtain ⟨h1, h2⟩ := altFindings_shape link p f hf
    exact ⟨h1, (by decide : ∀ x ∈ [("Image alt text not meaningful", "High")],
      x ∈ rulePairs) _ h2⟩
  · obtain ⟨h1, h2⟩ := viewportFindings_shape link p f hf
    exact ⟨h1, (by decide : ∀ x ∈ [("Missing viewport meta", "Medium"),
      ("No responsive media queries", "Low")], x ∈ rulePairs) _ h2⟩
  · obtain ⟨h1, h2⟩ := linkFindings_shape link p.anchors f hf
    exact ⟨h1, (by decide : ∀ x ∈ [("Empty or broken link", "Medium"),
      ("Link text not descriptive", "Low"), ("Broken link detected", "High")],
      x ∈ rulePairs) _ h2⟩
  · obtain ⟨h1, h2⟩ := contrastFindings_shape oracle link p f hf
    exact ⟨h1, (by decide : ∀ x ∈ [("Insufficient colour contrast", "High")],
      x ∈ rulePairs) _ h2⟩
  · obtain ⟨h1, h2⟩ := keyboardFindings_shape link p f hf
    exact ⟨h1, (by decide : ∀ x ∈ [("Keyboard navigation inaccessible", "High"),
      ("Elements removed from tab order", "Low")], x ∈ rulePairs) _ h2⟩
  · obtain ⟨h1, h2⟩ := formFindings_shape link p f hf
    exact ⟨h1, (by decide : ∀ x ∈ [("Form field missing label", "Medium")],
      x ∈ rulePairs) _ h2⟩
  · obtain ⟨h1, h2⟩ := feedbackFindings_shape link p f hf
    exact ⟨h1, (by decide : ∀ x ∈ [("Missing user feedback hooks", "Low")],
      x ∈ rulePairs) _ h2⟩
  · obtain ⟨h1, h2⟩ := readabilityFindings_shape link p.styleSamples f hf
    exact ⟨h1, (by decide : ∀ x ∈ [("Small font size", "Low"), ("Tight line spacing", "Low")],
      x ∈ rulePairs) _ h2⟩
  · obtain ⟨h1, h2⟩ := performanceFindings_shape link p f hf
    exact ⟨h1, (by decide : ∀ x ∈ [("Slow page performance", "Medium")],
      x ∈ rulePairs) _ h2⟩
  · obtain ⟨h1, h2⟩ := imageFindings_shape link p.imgs f hf
    exact ⟨h1, (by decide : ∀ x ∈ [("Broken image source", "Low")],
      x ∈ rulePairs) _ h2⟩

/-- Attaching evidence changes no field but the evidence reference. -/
theorem attachEvidence_mem (c : Nat) (fs : List Finding) :
    ∀ f ∈ attachEvidence c fs, ∃ g ∈ fs,
      f.key = g.key ∧ f.rule = g.rule ∧ f.page = g.page ∧ f.desc = g.desc ∧
      f.severity = g.severity := by
  induction fs generalizing c with
  | nil => intro f hf; simp [attachEvidence] at hf
  | cons g rest ih =>
    intro f hf
    unfold attachEvidence at hf
    rcases List.mem_cons.mp hf with h | h
    · exact ⟨g, List.mem_cons_self g rest, by subst h; simp⟩
    · obtain ⟨g2, hg2, hprops⟩ := ih (c + 1) f h
      exact ⟨g2, List.mem_cons_of_mem g hg2, hprops⟩

/-- Attaching evidence preserves the per-rule-per-page count. -/
theorem attachEvidence_countP (r link : String) (c : Nat) (fs : List Finding) :
    (attachEvidence c fs).countP (ruleAt r link) = fs.countP (ruleAt r link) := by
  induction fs generalizing c with
  | nil => rfl
  | cons g rest ih =>
    unfold attachEvidence
    rw [List.countP_cons, List.countP_cons, ih (c + 1)]
    simp [ruleAt]

/-- Each scan-list entry's issue rows carry that entry's URL and a severity
of the fixed three. -/
theorem pageIssues_shape (oracle : ContrastOracle) (c : Nat) (link : String) (pr : PageResult) :
    ∀ f ∈ pageIssues oracle c link pr, f.page = link ∧ severityOk f := by
  intro f hf
  cases pr with
  | loaded p =>
    obtain ⟨g, hg, ⟨-, hr, hp, -, hs⟩⟩ := attachEvidence_mem (c + 1) (perPageFindings oracle link p) f hf
    obtain ⟨h1, h2⟩ := perPageFindings_shape oracle link p g hg
    refine ⟨hp.trans h1, ?_⟩
    have hsev := (by decide : ∀ x ∈ rulePairs, x.2 = "High" ∨ x.2 = "Medium" ∨ x.2 = "Low") _ h2
    unfold severityOk
    rw [hs]
    exact hsev
  | error msg =>
    rcases List.mem_singleton.mp hf with rfl
    exact ⟨rfl, Or.inl rfl⟩

/-- Every issue row of the main loop carries one of the three severities. -/
theorem scanIssues_sev (oracle : ContrastOracle) (c : Nat) (pages : List (String × PageResult)) :
    ∀ f ∈ scanIssues oracle c pages, severityOk f := by
  induction pages generalizing c with
  | nil => intro f hf; simp [scanIssues] at hf
  | cons pg rest ih =>
    intro f hf
    obtain ⟨l, pr⟩ := pg
    unfold scanIssues at hf
    rcases List.mem_append.mp hf with h | h
    · exact (pageIssues_shape oracle c l pr f h).2
    · exact ih _ f h

/-- Shape of the duplicate-title aggregate rows. -/
theorem dupTitleFindings_shape (tm : List (String × String)) :
    ∀ f ∈ dupTitleFindings tm,
      f.rule = "Non-unique page title" ∧ f.severity = "Medium" ∧ f.evidence = none := by
  intro f hf
  unfold dupTitleFindings at hf
  split at hf
  · unfold dupEntryRows at hf
    simp only [List.mem_filterMap] at hf
    obtain ⟨pt, -, hpt⟩ := hf
    split at hpt
    · injection hpt with h2
      subst h2
      exact ⟨rfl, rfl, rfl⟩
    · simp at hpt
  · simp at hf

/-- Shape of the inconsistent-navigation aggregate rows. -/
theorem navIncFindings_shape (nm : List (String × String)) (setOrder : List String) :
    ∀ f ∈ navIncFindings nm setOrder,
      f.rule = "Inconsistent navigation" ∧ f.severity = "Low" ∧ f.evidence = none := by
  intro f hf
  unfold navIncFindings at hf
  split at hf
  · unfold navEntryRows at hf
    simp only [List.mem_filterMap] at hf
    obtain ⟨ps, -, hps⟩ := hf
    split at hps
    · injection hps with h2
      subst h2
      exact ⟨rfl, rfl, rfl⟩
    · simp at hps
  · simp at hf

/-- C10: every finding a scan returns — rule findings, page-load errors and
cross-page aggregates alike — carries severity High, Medium or Low,
whatever the pages held and however the screenshot saves went. -/
theorem runScan_severities (oracle : ContrastOracle) (setOrder : List String)
    (pages : List (String × PageResult)) :
    ∀ f ∈ runScanIssues oracle setOrder pages, severityOk f := by
  intro f hf
  unfold runScanIssues at hf
  rcases List.mem_append.mp hf with h | h
  · rcases List.mem_append.mp h with h2 | h2
    · exact scanIssues_sev oracle 0 pages f h2
    · exact Or.inr (Or.inl (dupTitleFindings_shape _ f h2).2.1)
  · exact Or.inr (Or.inr (navIncFindings_shape _ setOrder f h).2.1)

/-- C10 witness: the severity invariant applied to a concrete one-page scan
whose navigation failed. -/
theorem runScan_severities_witness :
    severityOk ⟨"", "Page load error", "p", "boom", "High", none⟩ :=
  runScan_severities constContrastOracle [] [("p", PageResult.error "boom")]
    ⟨"", "Page load error", "p", "boom", "High", none⟩ (by decide)

/-- A block whose issue names all differ from `r` contributes no finding to
the count for `r`. -/
theorem countP_zero_of_shape {fs : List Finding} {L : List (String × String)} {link : String}
    (r : String)
    (hshape : ∀ f ∈ fs, f.page = link ∧ (f.rule, f.severity) ∈ L)
    (hr : ∀ rs ∈ L, rs.1 ≠ r) :
    fs.countP (ruleAt r link) = 0 := by
  rw [List.countP_eq_zero]
  intro f hf
  obtain ⟨-, h2⟩ := hshape f hf
  have hne : f.rule ≠ r := hr _ h2
  simp [ruleAt, hne]

/-- The title block contributes exactly one finding when the effective title
is shorter than five characters (an absent or whitespace-only title has
length zero), none otherwise. -/
theorem titleFindings_countP (link : String) (p : PageInput) :
    (titleFindings link p).countP (ruleAt "Page title not descriptive" link)
      = if (pyTitle p).length < 5 then 1 else 0 := by
  unfold titleFindings
  dsimp only []
  by_cases hc : pyTitle p = "" ∨ (pyTitle p).length < 5
  · rw [if_pos hc]
    have hlen : (pyTitle p).length < 5 := by
      rcases hc with h | h
      · rw [h]
        decide
      · exact h
    rw [if_pos hlen]
    simp [ruleAt]
  · rw [if_neg hc]
    push_neg at hc
    rw [if_neg (Nat.not_lt.mpr hc.2)]
    rfl

/-- The whole rule battery contributes exactly the title block's count of
title-quality findings. -/
theorem perPage_title_countP (oracle : ContrastOracle) (link : String) (p : PageInput) :
    (perPageFindings oracle link p).countP (ruleAt "Page title not descriptive" link)
      = if (pyTitle p).length < 5 then 1 else 0 := by
  unfold perPageFindings
  repeat rw [List.countP_append]
  rw [titleFindings_countP link p,
    countP_zero_of_shape "Page title not descriptive" (headingFindings_shape link p) (by decide),
    countP_zero_of_shape "Page title not descriptive" (altFindings_shape link p) (by decide),
    countP_zero_of_shape "Page title not descriptive" (viewportFindings_shape link p) (by decide),
    countP_zero_of_shape "Page title not descriptive" (linkFindings_shape link p.anchors)
      (by decide),
    countP_zero_of_shape "Page title not descriptive" (contrastFindings_shape oracle link p)
      (by decide),
    countP_zero_of_shape "Page title not descriptive" (keyboardFindings_shape link p) (by decide),
    countP_zero_of_shape "Page title not descriptive" (formFindings_shape link p) (by decide),
    countP_zero_of_shape "Page title not descriptive" (feedbackFindings_shape link p) (by decide),
    countP_zero_of_shape "Page title not descriptive" (readabilityFindings_shape link p.styleSamples)
      (by decide),
    countP_zero_of_shape "Page title not descriptive" (performanceFindings_shape link p)
      (by decide),
    countP_zero_of_shape "Page title not descriptive" (imageFindings_shape link p.imgs)
      (by decide)]
  simp

/-- Issue rows of a different page never match the per-page count. -/
theorem pageIssues_countP_other (oracle : ContrastOracle) (c : Nat) (l : String)
    (pr : PageResult) (r link : String) (hne : l ≠ link) :
    (pageIssues oracle c l pr).countP (ruleAt r link) = 0 := by
  rw [List.countP_eq_zero]
  intro f hf
  have hpage := (pageIssues_shape oracle c l pr f hf).1
  have hJ : f.page ≠ link := by
    rw [hpage]
    exact hne
  simp [ruleAt, hJ]

/-- Pages other than `link` contribute nothing to `link`'s count. -/
theorem scanIssues_countP_zero (oracle : ContrastOracle) (r link : String) (c : Nat)
    (pages : List (String × PageResult)) :
    link ∉ pages.map Prod.fst →
    (scanIssues oracle c pages).countP (ruleAt r link) = 0 := by
  induction pages generalizing c with
  | nil => intro _; rfl
  | cons pg rest ih =>
    intro hout
    obtain ⟨l, pr⟩ := pg
    simp only [List.map_cons, List.mem_cons] at hout
    push_neg at hout
    unfold scanIssues
    rw [List.countP_append, pageIssues_countP_other oracle c l pr r link (Ne.symm hout.1),
      ih _ hout.2]

/-- The per-page count for a loaded page, independent of the capture
counter. -/
theorem pageIssues_countP_self (oracle : ContrastOracle) (c : Nat) (link : String)
    (p : PageInput) :
    (pageIssues oracle c link (PageResult.loaded p)).countP
        (ruleAt "Page title not descriptive" link)
      = if (pyTitle p).length < 5 then 1 else 0 := by
  unfold pageIssues
  rw [attachEvidence_countP, perPage_title_countP]

/-- Over the whole loop, a scanned page's title-quality count is decided by
its own title alone. -/
theorem scanIssues_title_countP (oracle : ContrastOracle) (c : Nat)
    (pages : List (String × PageResult)) (link : String) (p : PageInput) :
    (pages.map Prod.fst).Nodup → (link, PageResult.loaded p) ∈ pages →
    (scanIssues oracle c pages).countP (ruleAt "Page title not descriptive" link)
      = if (pyTitle p).length < 5 then 1 else 0 := by
  induction pages generalizing c with
  | nil => intro _ hmem; cases hmem
  | cons pg rest ih =>
    intro hnd hmem
    obtain ⟨l, pr⟩ := pg
    simp only [List.map_cons, List.nodup_cons] at hnd
    unfold scanIssues
    rw [List.countP_append]
    rcases List.mem_cons.mp hmem with heq | hmem2
    · injection heq with h1 h2
      subst h1
      subst h2
      rw [pageIssues_countP_self, scanIssues_countP_zero oracle _ link _ rest hnd.1,
        Nat.add_zero]
    · have hlink : link ∈ rest.map Prod.fst := List.mem_map_of_mem Prod.fst hmem2
      have hne : l ≠ link := fun he => hnd.1 (he ▸ hlink)
      rw [pageIssues_countP_other oracle c l pr _ link hne, ih _ hnd.2 hmem2, Nat.zero_add]

/-- Every issue row of the main loop carries the page-load-error pair or one
of the rule battery's pairs. -/
theorem scanIssues_pairs (oracle : ContrastOracle) (c : Nat)
    (pages : List (String × PageResult)) :
    ∀ f ∈ scanIssues oracle c pages,
      (f.rule, f.severity) ∈ ("Page load error", "High") :: rulePairs := by
  induction pages generalizing c with
  | nil => intro f hf; simp [scanIssues] at hf
  | cons pg rest ih =>
    intro f hf
    obtain ⟨l, pr⟩ := pg
    unfold scanIssues at hf
    rcases List.mem_append.mp hf with h | h
    · cases pr with
      | loaded p =>
        obtain ⟨g, hg, ⟨-, hr, -, -, hs⟩⟩ := attachEvidence_mem _ _ f h
        have h2 := (perPageFindings_shape oracle l p g hg).2
        rw [hr, hs]
        exact List.mem_cons_of_mem _ h2
      | error msg =>
        rcases List.mem_singleton.mp h with rfl
        exact List.mem_cons_self _ _
    · exact ih _ f h

/-- C4: a successfully loaded page yields exactly one title-quality finding
when its effective title (absent and whitespace-only titles collapse to the
empty string) is shorter than five characters, and none when the title has
five or more characters; every title-quality finding is High. -/
theorem title_quality_rule (oracle : ContrastOracle) (setOrder : List String)
    (pages : List (String × PageResult)) (link : String) (p : PageInput)
    (hnd : (pages.map Prod.fst).Nodup)
    (hmem : (link, PageResult.loaded p) ∈ pages) :
    (runScanIssues oracle setOrder pages).countP (ruleAt "Page title not descriptive" link)
        = (if (pyTitle p).length < 5 then 1 else 0) ∧
    ∀ f ∈ runScanIssues oracle setOrder pages,
      f.rule = "Page title not descriptive" → f.severity = "High" := by
  constructor
  · unfold runScanIssues
    rw [List.countP_append, List.countP_append,
      scanIssues_title_countP oracle 0 pages link p hnd hmem]
    have hdup : (dupTitleFindings (titleMapOf pages)).countP
        (ruleAt "Page title not descriptive" link) = 0 := by
      rw [List.countP_eq_zero]
      intro f hf
      have h := (dupTitleFindings_shape _ f hf).1
      simp [ruleAt, h]
    have hnav : (navIncFindings (navSigsOf pages) setOrder).countP
        (ruleAt "Page title not descriptive" link) = 0 := by
      rw [List.countP_eq_zero]
      intro f hf
      have h := (navIncFindings_shape _ setOrder f hf).1
      simp [ruleAt, h]
    rw [hdup, hnav]
    simp
  · intro f hf hrule
    unfold runScanIssues at hf
    rcases List.mem_append.mp hf with h | h
    · rcases List.mem_append.mp h with h2 | h2
      · have hp := scanIssues_pairs oracle 0 pages f h2
        rcases List.mem_cons.mp hp with hpe | hpp
        · have hfr : f.rule = "Page load error" := congrArg Prod.fst hpe
          rw [hrule] at hfr
          exact absurd hfr (by decide)
        · exact (by decide : ∀ x ∈ rulePairs,
            x.1 = "Page title not descriptive" → x.2 = "High") _ hpp hrule
      · have h := (dupTitleFindings_shape _ f h2).1
        rw [hrule] at h
        exact absurd h (by decide)
    · have h2 := (navIncFindings_shape _ setOrder f h).1
      rw [hrule] at h2
      exact absurd h2 (by decide)

/-- C4 witness: a one-page scan of a page without a title yields exactly one
title-quality finding. -/
theorem title_quality_rule_witness :
    (runScanIssues constContrastOracle [] [("p", PageResult.loaded quietPage)]).countP
        (ruleAt "Page title not descriptive" "p") = 1 := by
  have h := (title_quality_rule constContrastOracle [] [("p", PageResult.loaded quietPage)]
      "p" quietPage (by decide) (by decide)).1
  rw [if_pos (by decide)] at h
  exact h

/-- The fold behind `maxByCount` returns its seed or a list element. -/
theorem foldlBest_mem (sigs : List String) (rest : List String) (x : String) :
    rest.foldl (fun best y => if sigs.count y > sigs.count best then y else best) x
      ∈ x :: rest := by
  induction rest generalizing x with
  | nil => exact List.mem_singleton_self x
  | cons y ys ih =>
    simp only [List.foldl_cons]
    rcases List.mem_cons.mp (ih (if sigs.count y > sigs.count x then y else x)) with h | h
    · rw [h]
      split
      · exact List.mem_cons_of_mem _ (List.mem_cons_self _ _)
      · exact List.mem_cons_self _ _
    · exact List.mem_cons_of_mem _ (List.mem_cons_of_mem _ h)

/-- The fold behind `maxByCount` never returns an element with a smaller
count than the seed or any list element. -/
theorem foldlBest_ge (sigs : List String) (rest : List String) (x : String) :
    ∀ z ∈ x :: rest,
      sigs.count z ≤ sigs.count
        (rest.foldl (fun best y => if sigs.count y > sigs.count best then y else best) x) := by
  induction rest generalizing x with
  | nil =>
    intro z hz
    rcases List.mem_singleton.mp hz with rfl
    exact le_refl _
  | cons y ys ih =>
    intro z hz
    simp only [List.foldl_cons]
    have hstep1 : sigs.count x ≤ sigs.count (if sigs.count y > sigs.count x then y else x) := by
      split
      · next hgt => exact le_of_lt hgt
      · exact le_refl _
    have hstep2 : sigs.count y ≤ sigs.count (if sigs.count y > sigs.count x then y else x) := by
      split
      · exact le_refl _
      · next hle => exact Nat.not_lt.mp hle
    have hrec := ih (if sigs.count y > sigs.count x then y else x)
    rcases List.mem_cons.mp hz with rfl | hz2
    · exact le_trans hstep1 (hrec _ (List.mem_cons_self _ _))
    · rcases List.mem_cons.mp hz2 with rfl | hz3
      · exact le_trans hstep2 (hrec _ (List.mem_cons_self _ _))
      · exact hrec _ (List.mem_cons_of_mem _ hz3)

/-- `maxByCount` picks an element of the iteration order. -/
theorem maxByCount_mem (sigs : List String) (setOrder : List String) (h : setOrder ≠ []) :
    maxByCount sigs setOrder ∈ setOrder := by
  match setOrder with
  | [] => exact absurd rfl h
  | x :: rest => exact foldlBest_mem sigs rest x

/-- `maxByCount` maximises the count over the iteration order. -/
theorem maxByCount_ge (sigs : List String) (setOrder : List String) (z : String)
    (hz : z ∈ setOrder) :
    sigs.count z ≤ sigs.count (maxByCount sigs setOrder) := by
  match setOrder with
  | [] => cases hz
  | x :: rest => exact foldlBest_ge sigs rest x z hz

/-- A filterMap of per-page rows counts zero for a page not in the map. -/
theorem countP_rows_zero (cond : String × String → Prop) [DecidablePred cond]
    (row : String → Finding) (hrow : ∀ s, (row s).page = s)
    (m : List (String × String)) (page : String) :
    page ∉ m.map Prod.fst →
    (m.filterMap (fun ps => if cond ps then some (row ps.1) else none)).countP
        (fun f => f.page == page) = 0 := by
  induction m with
  | nil => intro _; rfl
  | cons hd rest ih =>
    intro hout
    simp only [List.map_cons, List.mem_cons] at hout
    push_neg at hout
    by_cases hc : cond hd
    · simp only [List.filterMap_cons, if_pos hc]
      rw [List.countP_cons, ih hout.2]
      have hne : (row hd.1).page ≠ page := by
        rw [hrow]
        exact Ne.symm hout.1
      simp [hne]
    · simp only [List.filterMap_cons, if_neg hc]
      exact ih hout.2

/-- With distinct page keys, a filterMap of per-page rows counts exactly one
row for a page when its entry satisfies the condition, zero otherwise. -/
theorem countP_rows_mem (cond : String × String → Prop) [DecidablePred cond]
    (row : String → Finding) (hrow : ∀ s, (row s).page = s)
    (m : List (String × String)) (page t : String) :
    (m.map Prod.fst).Nodup → (page, t) ∈ m →
    (m.filterMap (fun ps => if cond ps then some (row ps.1) else none)).countP
        (fun f => f.page == page) = if cond (page, t) then 1 else 0 := by
  induction m with
  | nil => intro _ hm; cases hm
  | cons hd rest ih =>
    intro hnd hm
    simp only [List.map_cons, List.nodup_cons] at hnd
    rcases List.mem_cons.mp hm with heq | hmem
    · subst heq
      by_cases hc : cond (page, t)
      · simp only [List.filterMap_cons, if_pos hc]
        rw [List.countP_cons, countP_rows_zero cond row hrow rest page hnd.1]
        simp [hrow]
      · simp only [List.filterMap_cons, if_neg hc]
        rw [countP_rows_zero cond row hrow rest page hnd.1]
    · have hpage : page ∈ rest.map Prod.fst := List.mem_map_of_mem Prod.fst hmem
      have hne : hd.1 ≠ page := fun he => hnd.1 (he ▸ hpage)
      by_cases hc : cond hd
      · simp only [List.filterMap_cons, if_pos hc]
        rw [List.countP_cons, ih hnd.2 hmem]
        have hp2 : (row hd.1).page ≠ page := by
          rw [hrow]
          exact hne
        simp [hp2]
      · simp only [List.filterMap_cons, if_neg hc]
        exact ih hnd.2 hmem

/-- C6 counterexample: two pages whose (empty) title is shared by both —
each page's title string occurs twice — yet the aggregation flags neither,
because the source's set comprehension skips falsy titles. -/
theorem dup_title_shared_empty_cex :
    dupTitleFindings [("p1", ""), ("p2", "")] = [] ∧
    1 < (([("p1", ""), ("p2", "")].map Prod.snd).count "") := by
  constructor
  · decide
  · decide

/-- C6 amended: with more than one page scanned and distinct page URLs, a
page is flagged with exactly one Medium duplicate-title finding exactly when
its title is non-empty and shared by at least two pages; the spec's A/B/C
example follows as the final conjunct. -/
theorem dup_title_amended :
    (∀ tm page t, (tm.map Prod.fst).Nodup → (page, t) ∈ tm → 1 < tm.length →
        (dupTitleFindings tm).countP (fun f => f.page == page)
          = if t ≠ "" ∧ 1 < (tm.map Prod.snd).count t then 1 else 0) ∧
    (∀ tm f, f ∈ dupTitleFindings tm →
        f.rule = "Non-unique page title" ∧ f.severity = "Medium" ∧ f.evidence = none) ∧
    (∀ tm, tm.length ≤ 1 → dupTitleFindings tm = []) ∧
    dupTitleFindings [("A", "Home"), ("B", "Home"), ("C", "Contact")]
      = [dupRow "A", dupRow "B"] := by
  refine ⟨?_, ?_, ?_, by decide⟩
  · intro tm page t hnd hm hlen
    unfold dupTitleFindings
    rw [if_pos hlen]
    exact countP_rows_mem (fun pt => pt.2 ≠ "" ∧ 1 < (tm.map Prod.snd).count pt.2)
      dupRow (fun s => rfl) tm page t hnd hm
  · exact fun tm f hf => dupTitleFindings_shape tm f hf
  · intro tm hlen
    unfold dupTitleFindings
    rw [if_neg (by omega)]

/-- C3 counterexample: two pages with empty signatures and one page with
signature "A". Under both possible iteration orders of the two-element set,
the majority signature is the empty string, the odd page's non-empty
signature differs from it, and yet no inconsistent-navigation finding is
produced — the source's `sig and majority and` guard exempts the whole scan
when the majority itself is empty. -/
theorem nav_majority_empty_cex :
    navIncFindings [("p1", ""), ("p2", ""), ("p3", "A")] ["", "A"] = [] ∧
    navIncFindings [("p1", ""), ("p2", ""), ("p3", "A")] ["A", ""] = [] ∧
    maxByCount ["", "", "A"] ["", "A"] = "" ∧
    maxByCount ["", "", "A"] ["A", ""] = "" ∧
    ("A" : String) ≠ "" := by
  refine ⟨by decide, by decide, by decide, by decide, by decide⟩

/-- C3 amended: the majority signature is one of maximal count over any
iteration order of the signature set (ties broken by that unspecified
order); with distinct page URLs, a scanned page receives exactly one Low
finding exactly when its signature and the majority are both non-empty and
differ; all-equal signature maps (all-empty included) produce no finding;
and the spec's two-against-one example follows concretely. -/
theorem nav_majority_amended :
    (∀ (sigs setOrder : List String), validSetOrder sigs setOrder → sigs ≠ [] →
        maxByCount sigs setOrder ∈ sigs ∧
        ∀ s ∈ sigs, sigs.count s ≤ sigs.count (maxByCount sigs setOrder)) ∧
    (∀ nm setOrder page s, (nm.map Prod.fst).Nodup → (page, s) ∈ nm → 1 < nm.length →
        (navIncFindings nm setOrder).countP (fun f => f.page == page)
          = if s ≠ "" ∧ maxByCount (nm.map Prod.snd) setOrder ≠ "" ∧
              s ≠ maxByCount (nm.map Prod.snd) setOrder then 1 else 0) ∧
    (∀ nm setOrder, validSetOrder (nm.map Prod.snd) setOrder →
        (∀ s ∈ nm.map Prod.snd, ∀ t ∈ nm.map Prod.snd, s = t) →
        navIncFindings nm setOrder = []) ∧
    (∀ nm setOrder, maxByCount (nm.map Prod.snd) setOrder = "" →
        navIncFindings nm setOrder = []) ∧
    (∀ nm setOrder f, f ∈ navIncFindings nm setOrder →
        f.rule = "Inconsistent navigation" ∧ f.severity = "Low" ∧ f.evidence = none) ∧
    navIncFindings [("a", "X"), ("b", "X"), ("c", "Y")] ["X", "Y"] = [navRow "c"] ∧
    navIncFindings [("a", "X"), ("b", "X"), ("c", "Y")] ["Y", "X"] = [navRow "c"] := by
  refine ⟨?_, ?_, ?_, ?_, ?_, by decide, by decide⟩
  · intro sigs setOrder hvalid hne
    obtain ⟨s0, hs0⟩ := List.exists_mem_of_ne_nil sigs hne
    have horder : setOrder ≠ [] := by
      intro he
      rw [he] at hvalid
      cases (hvalid.2 s0).mpr hs0
    constructor
    · exact (hvalid.2 _).mp (maxByCount_mem sigs setOrder horder)
    · intro s hs
      exact maxByCount_ge sigs setOrder s ((hvalid.2 s).mpr hs)
  · intro nm setOrder page s hnd hm hlen
    unfold navIncFindings
    rw [if_pos hlen]
    exact countP_rows_mem
      (fun ps => ps.2 ≠ "" ∧ maxByCount (nm.map Prod.snd) setOrder ≠ "" ∧
        ps.2 ≠ maxByCount (nm.map Prod.snd) setOrder)
      navRow (fun x => rfl) nm page s hnd hm
  · intro nm setOrder hvalid hall
    by_cases hlen : 1 < nm.length
    · unfold navIncFindings
      rw [if_pos hlen]
      unfold navEntryRows
      rw [List.filterMap_eq_nil_iff]
      intro ps hps
      have hsig : ps.2 ∈ nm.map Prod.snd := List.mem_map_of_mem Prod.snd hps
      have hne : nm.map Prod.snd ≠ [] := by
        intro he
        rw [he] at hsig
        cases hsig
      obtain ⟨s0, hs0⟩ := List.exists_mem_of_ne_nil _ hne
      have horder : setOrder ≠ [] := by
        intro he
        rw [he] at hvalid
        cases (hvalid.2 s0).mpr hs0
      have hmaj : maxByCount (nm.map Prod.snd) setOrder ∈ nm.map Prod.snd :=
        (hvalid.2 _).mp (maxByCount_mem _ setOrder horder)
      have heqm : ps.2 = maxByCount (nm.map Prod.snd) setOrder := hall _ hsig _ hmaj
      rw [if_neg]
      intro hcond
      exact hcond.2.2 heqm
    · unfold navIncFindings
      rw [if_neg hlen]
  · intro nm setOrder hmaj
    unfold navIncFindings
    split
    · unfold navEntryRows
      rw [List.filterMap_eq_nil_iff]
      intro ps hps
      rw [if_neg]
      intro hcond
      exact hcond.2.1 hmaj
    · rfl
  · exact fun nm setOrder f hf => navIncFindings_shape nm setOrder f hf

/-- Unfolding equation of `consumedAll` on a cons cell. -/
theorem consumedAll_cons (oracle : ContrastOracle) (l : String) (pr : PageResult)
    (rest : List (String × PageResult)) :
    consumedAll oracle ((l, pr) :: rest)
      = shotsConsumed oracle l pr + consumedAll oracle rest := rfl

/-- Unfolding equation of `scanIssues` on a cons cell. -/
theorem scanIssues_cons (oracle : ContrastOracle) (c : Nat) (l : String) (pr : PageResult)
    (rest : List (String × PageResult)) :
    scanIssues oracle c ((l, pr) :: rest)
      = pageIssues oracle c l pr ++
        scanIssues oracle (c + shotsConsumed oracle l pr) rest := rfl

/-- Capture counters consumed by a concatenation of scan-list entries. -/
theorem consumedAll_append (oracle : ContrastOracle) (xs ys : List (String × PageResult)) :
    consumedAll oracle (xs ++ ys) = consumedAll oracle xs + consumedAll oracle ys := by
  induction xs with
  | nil => simp [consumedAll]
  | cons pg rest ih =>
    obtain ⟨l, pr⟩ := pg
    rw [List.cons_append, consumedAll_cons, consumedAll_cons, ih, Nat.add_assoc]

/-- The main loop processes a concatenation of scan lists piecewise. -/
theorem scanIssues_append (oracle : ContrastOracle) (c : Nat)
    (xs ys : List (String × PageResult)) :
    scanIssues oracle c (xs ++ ys)
      = scanIssues oracle c xs ++ scanIssues oracle (c + consumedAll oracle xs) ys := by
  induction xs generalizing c with
  | nil => simp [scanIssues, consumedAll]
  | cons pg rest ih =>
    obtain ⟨l, pr⟩ := pg
    rw [List.cons_append, scanIssues_cons, scanIssues_cons, consumedAll_cons,
      ih (c + shotsConsumed oracle l pr), List.append_assoc, Nat.add_assoc]

/-- A failed navigation leaves no trace in the title map. -/
theorem titleMapOf_skips_error (pre post : List (String × PageResult)) (link msg : String) :
    titleMapOf (pre ++ (link, PageResult.error msg) :: post) = titleMapOf (pre ++ post) := by
  unfold titleMapOf
  rw [List.foldl_append, List.foldl_append, List.foldl_cons]

/-- A failed navigation leaves no trace in the signature map. -/
theorem navSigsOf_skips_error (pre post : List (String × PageResult)) (link msg : String) :
    navSigsOf (pre ++ (link, PageResult.error msg) :: post) = navSigsOf (pre ++ post) := by
  unfold navSigsOf
  rw [List.foldl_append, List.foldl_append, List.foldl_cons]

/-- C7: a page whose navigation or extraction raises contributes exactly one
High "Page load error" finding — its description the raw exception text, its
evidence absent — and nothing else changes: the pages after it are scanned
exactly as they would be (it consumes no capture counter) and it is absent
from both cross-page aggregations. -/
theorem page_load_error_isolated (oracle : ContrastOracle) (setOrder : List String)
    (pre post : List (String × PageResult)) (link msg : String) :
    runScanIssues oracle setOrder (pre ++ (link, PageResult.error msg) :: post)
      = scanIssues oracle 0 pre ++
        [⟨"", "Page load error", link, msg, "High", none⟩] ++
        scanIssues oracle (consumedAll oracle pre) post ++
        dupTitleFindings (titleMapOf (pre ++ post)) ++
        navIncFindings (navSigsOf (pre ++ post)) setOrder := by
  unfold runScanIssues
  rw [titleMapOf_skips_error, navSigsOf_skips_error,
    scanIssues_append oracle 0 pre ((link, PageResult.error msg) :: post)]
  show (scanIssues oracle 0 pre ++
      (pageIssues oracle (0 + consumedAll oracle pre) link (PageResult.error msg) ++
        scanIssues oracle (0 + consumedAll oracle pre +
          shotsConsumed oracle link (PageResult.error msg)) post)) ++ _ ++ _ = _
  simp only [pageIssues, shotsConsumed, Nat.zero_add, Nat.add_zero, List.append_assoc]

/-- The anchor loop walks past live anchors, keeping only their possible
link-text findings. -/
theorem linkFindings_skip_live (link : String) (pre L : List AnchorInput)
    (hpre : ∀ b ∈ pre, liveAnchor b = true) :
    linkFindings link (pre ++ L)
      = pre.flatMap (linkTextFindings link) ++ linkFindings link L := by
  induction pre with
  | nil => simp
  | cons a rest ih =>
    have ha := hpre a (List.mem_cons_self _ _)
    have hrest : ∀ b ∈ rest, liveAnchor b = true :=
      fun b hb => hpre b (List.mem_cons_of_mem _ hb)
    rcases hhref : a.href with _ | h
    · rw [liveAnchor, hhref] at ha
      simp at ha
    · rcases hfetch : a.fetch with code | _
      · rw [liveAnchor, hhref, hfetch] at ha
        simp only [Bool.and_eq_true, Bool.not_eq_true', decide_eq_true_eq] at ha
        simp only [List.cons_append]
        conv_lhs => rw [linkFindings]
        rw [hhref]
        simp only [ha.1, Bool.false_eq_true, if_false, hfetch]
        rw [if_neg (by omega), ih hrest, List.flatMap_cons, List.append_assoc]
      · rw [liveAnchor, hhref, hfetch] at ha
        simp at ha

/-- C8: within one page's anchor loop, after any run of live anchors, the
first anchor whose probe returns HTTP at or above 400 yields one High
"Broken link detected" finding whose description embeds that status code,
and the first anchor whose probe raises (or times out) yields one High
finding with the "Failed to open" description instead of a crash; in both
cases the loop stops there, so the anchors after the offender contribute
nothing. -/
theorem dead_link_first_offender (link : String) (pre post : List AnchorInput)
    (a : AnchorInput) (h : String)
    (hpre : ∀ b ∈ pre, liveAnchor b = true)
    (hhref : a.href = some h) (hgood : emptyHrefs.contains h = false) :
    (∀ code, a.fetch = FetchRes.status code → 400 ≤ code →
        linkFindings link (pre ++ a :: post)
          = pre.flatMap (linkTextFindings link) ++ linkTextFindings link a ++
            [⟨"links", "Broken link detected", link,
              "Link returns HTTP " ++ toString code ++ ": " ++ a.absUrl, "High", none⟩] ∧
        ∃ u v, "Link returns HTTP " ++ toString code ++ ": " ++ a.absUrl
          = u ++ toString code ++ v) ∧
    (a.fetch = FetchRes.failed →
        linkFindings link (pre ++ a :: post)
          = pre.flatMap (linkTextFindings link) ++ linkTextFindings link a ++
            [⟨"links", "Broken link detected", link,
              "Failed to open: " ++ h, "High", none⟩]) := by
  constructor
  · intro code hfetch hge
    constructor
    · rw [linkFindings_skip_live link pre _ hpre]
      unfold linkFindings
      rw [hhref]
      simp only [hgood, Bool.false_eq_true, if_false, hfetch]
      rw [if_pos hge, List.append_assoc]
    · exact ⟨"Link returns HTTP ", ": " ++ a.absUrl, by rw [String.append_assoc]⟩
  · intro hfetch
    rw [linkFindings_skip_live link pre _ hpre]
    unfold linkFindings
    rw [hhref]
    simp only [hgood, Bool.false_eq_true, if_false, hfetch]
    rw [List.append_assoc]

/-- C8 witness: a live anchor, then a 404 anchor, then a 500 anchor — the
scan emits exactly the 404 finding with the code in its description and
never reaches the 500 anchor. -/
theorem dead_link_first_offender_witness :
    linkFindings "P" [anchorOk, anchor404, anchor500]
      = [⟨"links", "Broken link detected", "P",
          "Link returns HTTP 404: https://x.test/gone", "High", none⟩] := by
  have h := ((dead_link_first_offender "P" [anchorOk] [anchor500] anchor404 "/gone"
      (by decide) rfl (by decide)).1 404 rfl (by decide)).1
  exact h.trans (by decide)

/-- C1: the source line `if (lh/fs) if fs>0 else 1.0 < 1.2:` tests the
truthiness of the quotient for positive font sizes, so a sample with
line-height 24px over font-size 16px — ratio 1.5, well above the intended
1.2 threshold — still triggers the Tight line spacing finding. -/
theorem tight_spacing_truthiness_bug :
    readabilityFindings "p" [⟨"txt", none, none, some "16px", some "24px"⟩]
      = [⟨"readability", "Tight line spacing", "p",
          "Use line-height ≈ 1.4 for comfortable reading.", "Low", none⟩] ∧
    sampleFontSize ⟨"txt", none, none, some "16px", some "24px"⟩ = 16 ∧
    sampleLineHeight ⟨"txt", none, none, some "16px", some "24px"⟩ 16 = 24 ∧
    ¬ ((24 : ℚ) / 16 < 1.2) := by
  have hfs : sampleFontSize ⟨"txt", none, none, some "16px", some "24px"⟩ = 16 := by
    rw [show sampleFontSize ⟨"txt", none, none, some "16px", some "24px"⟩
        = ((16 : ℕ) : ℚ) from by decide]
    norm_num
  have hlh : sampleLineHeight ⟨"txt", none, none, some "16px", some "24px"⟩ 16 = 24 := by
    rw [show sampleLineHeight ⟨"txt", none, none, some "16px", some "24px"⟩ 16
        = ((24 : ℕ) : ℚ) from by decide]
    norm_num
  refine ⟨?_, hfs, hlh, by norm_num⟩
  unfold readabilityFindings
  dsimp only []
  rw [hfs, hlh]
  have hcond : (if (16 : ℚ) > 0 then ((24 : ℚ) / 16 != 0) else decide ((1 : ℚ) < 1.2))
      = true := by
    rw [if_pos (by norm_num : (16 : ℚ) > 0)]
    simp only [bne_iff_ne, ne_eq, decide_eq_true_eq]
    norm_num
  rw [if_neg (by norm_num : ¬ ((16 : ℚ) < 12)), if_pos hcond]

/-- C2 counterexample: when the screenshot save fails for every capture, the
title finding of a one-page scan still carries an evidence reference, while
no screenshot file was written — the capture helper returns the filename
whether or not `save_screenshot` succeeded. -/
theorem evidence_ref_without_file_cex :
    runScanIssues constContrastOracle [] [("p", PageResult.loaded quietPage)]
      = [⟨"title", "Page title not descriptive", "p",
          "Provide a unique, descriptive <title> of at least 5 characters.", "High",
          some "screenshot_1_title.png"⟩] ∧
    runScanWritten constContrastOracle (fun _ => false) [("p", PageResult.loaded quietPage)]
      = [] := by
  exact ⟨by decide, by decide⟩

/-- Rule findings always carry an evidence reference. -/
theorem attachEvidence_some (c : Nat) (fs : List Finding) :
    ∀ f ∈ attachEvidence c fs, f.evidence ≠ none := by
  induction fs generalizing c with
  | nil => intro f hf; simp [attachEvidence] at hf
  | cons g rest ih =>
    intro f hf
    unfold attachEvidence at hf
    rcases List.mem_cons.mp hf with rfl | hmem
    · simp
    · exact ih _ f hmem

/-- When every save succeeds, each attached evidence file is written. -/
theorem attachEvidence_written (saveOk : Nat → Bool) (hsave : ∀ n, saveOk n = true)
    (c : Nat) (fs : List Finding) :
    ∀ f ∈ attachEvidence c fs, ∀ e, f.evidence = some e → e ∈ savedShots saveOk c fs := by
  induction fs generalizing c with
  | nil => intro f hf; simp [attachEvidence] at hf
  | cons g rest ih =>
    intro f hf e he
    unfold attachEvidence at hf
    unfold savedShots
    rcases List.mem_cons.mp hf with heq | hmem
    · subst heq
      simp only [Option.some.injEq] at he
      subst he
      simp [hsave c]
    · have hrec := ih (c + 1) f hmem e he
      simp [hrec]

/-- When every save succeeds, each evidence reference of a page's issue rows
is a written file of that page. -/
theorem pageIssues_evidence_written (oracle : ContrastOracle) (saveOk : Nat → Bool)
    (hsave : ∀ n, saveOk n = true) (c : Nat) (link : String) (pr : PageResult) :
    ∀ f ∈ pageIssues oracle c link pr, ∀ e, f.evidence = some e →
      e ∈ pageWritten oracle saveOk c link pr := by
  intro f hf e he
  cases pr with
  | loaded p =>
    unfold pageIssues at hf
    unfold pageWritten
    have hrec := attachEvidence_written saveOk hsave (c + 1) _ f hf e he
    simp [hrec]
  | error msg =>
    rcases List.mem_singleton.mp hf with rfl
    simp at he

/-- When every save succeeds, the loop-wide version of the previous lemma. -/
theorem scanIssues_evidence_written (oracle : ContrastOracle) (saveOk : Nat → Bool)
    (hsave : ∀ n, saveOk n = true) (c : Nat) (pages : List (String × PageResult)) :
    ∀ f ∈ scanIssues oracle c pages, ∀ e, f.evidence = some e →
      e ∈ scanWritten oracle saveOk c pages := by
  induction pages generalizing c with
  | nil => intro f hf; simp [scanIssues] at hf
  | cons pg rest ih =>
    intro f hf e he
    obtain ⟨l, pr⟩ := pg
    unfold scanIssues at hf
    unfold scanWritten
    rcases List.mem_append.mp hf with hm | hm
    · exact List.mem_append.mpr
        (Or.inl (pageIssues_evidence_written oracle saveOk hsave c l pr f hm e he))
    · exact List.mem_append.mpr (Or.inr (ih _ f hm e he))

/-- A loop finding without evidence can only be a page-load error. -/
theorem scanIssues_none_rule (oracle : ContrastOracle) (c : Nat)
    (pages : List (String × PageResult)) :
    ∀ f ∈ scanIssues oracle c pages, f.evidence = none → f.rule = "Page load error" := by
  induction pages generalizing c with
  | nil => intro f hf; simp [scanIssues] at hf
  | cons pg rest ih =>
    intro f hf hnone
    obtain ⟨l, pr⟩ := pg
    unfold scanIssues at hf
    rcases List.mem_append.mp hf with hm | hm
    · cases pr with
      | loaded p => exact absurd hnone (attachEvidence_some _ _ f hm)
      | error msg =>
        rcases List.mem_singleton.mp hm with rfl
        rfl
    · exact ih _ f hm hnone

/-- C2 amended: every rule finding carries an evidence reference — the
capture's filename, returned whether or not the screenshot write succeeded
(the counterexample shows a failing write leaving a dangling reference); the
reference names an actually-written file whenever every save succeeds; and
the only loop findings without evidence are page-load errors. -/
theorem evidence_ref_amended :
    (∀ (oracle : ContrastOracle) setOrder (saveOk : Nat → Bool)
        (pages : List (String × PageResult)), (∀ n, saveOk n = true) →
        ∀ f ∈ runScanIssues oracle setOrder pages, ∀ e, f.evidence = some e →
          e ∈ runScanWritten oracle saveOk pages) ∧
    (∀ (oracle : ContrastOracle) c pages, ∀ f ∈ scanIssues oracle c pages,
        f.evidence = none → f.rule = "Page load error") ∧
    (∀ (oracle : ContrastOracle) c link p,
        ∀ f ∈ pageIssues oracle c link (PageResult.loaded p), f.evidence ≠ none) := by
  refine ⟨?_, ?_, ?_⟩
  · intro oracle setOrder saveOk pages hsave f hf e he
    unfold runScanIssues at hf
    rcases List.mem_append.mp hf with hm | hm
    · rcases List.mem_append.mp hm with hm2 | hm2
      · exact scanIssues_evidence_written oracle saveOk hsave 0 pages f hm2 e he
      · have hnone := (dupTitleFindings_shape _ f hm2).2.2
        rw [hnone] at he
        simp at he
    · have hnone := (navIncFindings_shape _ setOrder f hm).2.2
      rw [hnone] at he
      simp at he
  · exact fun oracle c pages => scanIssues_none_rule oracle c pages
  · exact fun oracle c link p f hf => attachEvidence_some _ _ f hf

end UsabilityScan
